import Mathlib

/-!
Verification of the convergence/failure-impact analysis pipeline of the
DOSP-Project-2-group-23 repository (two Python scripts:
`plot_convergence.py` and `graph-generation/failure_analysis_plots.py`).

The scripts work over pandas data frames; here a data frame is a
`List ExperimentRecord` (pandas row filtering preserves input order, so a
boolean-mask selection is `List.filter` and `.values[0]` is `List.head?`,
with `none` standing for the IndexError raised on an empty selection).
Metric and rate columns are modelled as rationals.
-/

/-- One row of an experiment data set.  Fields follow the CSV columns used by
the scripts: `algorithm`, `topology`, `failure_model`, `failure_rate`,
`network_size`, and the convergence metric column (`convergence_time` in
`plot_convergence.py`, `convergence_time_ms` in `failure_analysis_plots.py`). -/
structure ExperimentRecord where
  algorithm : String
  topology : String
  failureModel : String
  failureRate : ℚ
  networkSize : ℕ
  convergenceMetric : ℚ
deriving DecidableEq, Repr

/-- The convergence cap hardcoded as `50000` in `plot_convergence.py`
(lines 56, 142, 185, 193, 196, 206, 209). -/
def convergenceCap : ℚ := 50000

/-- Embeds the converged mask `convergence_times < 50000`
(`plot_convergence.py` line 56, and the same comparison at lines 142, 185,
193, 206), with the cap generalised to a parameter. -/
def classify (r : ExperimentRecord) (cap : ℚ) : Bool :=
  decide (r.convergenceMetric < cap)

/-- Converged-record selection `df[df['convergence_time'] < 50000]`
used throughout `print_statistics`. -/
def convergedRecords (rs : List ExperimentRecord) (cap : ℚ) : List ExperimentRecord :=
  rs.filter (fun r => classify r cap)

/-- Embeds `converged = len(data[data['convergence_time'] < 50000])`
(`plot_convergence.py` lines 193, 206). -/
def convergedCount (rs : List ExperimentRecord) (cap : ℚ) : ℕ :=
  (convergedRecords rs cap).length

/-- Embeds `rate = (converged / total) * 100`
(`plot_convergence.py` lines 186, 195, 208). -/
def successRatePct (rs : List ExperimentRecord) (cap : ℚ) : ℚ :=
  ((convergedCount rs cap : ℚ) / (rs.length : ℚ)) * 100

/-- Embeds `avg_time = data[data['convergence_time'] < 50000]['convergence_time'].mean()`
together with the `if not pd.isna(avg_time)` guard
(`plot_convergence.py` lines 196 and 199, 209 and 212): the pandas mean of an
empty selection is NaN and the guard suppresses it, modelled by `none`. -/
def meanConvergedMetric (rs : List ExperimentRecord) (cap : ℚ) : Option ℚ :=
  let conv := convergedRecords rs cap
  if conv.isEmpty then none
  else some (((conv.map (fun r => r.convergenceMetric)).sum) / (conv.length : ℚ))

/-- Embeds the per-group row selection `df[df['algorithm'] == algorithm]`
(resp. `df[df['topology'] == topology]`) of `print_statistics`
(`plot_convergence.py` lines 192, 205), with the grouping column abstracted
as a key function. -/
def groupRecords (rs : List ExperimentRecord) (key : ExperimentRecord → String)
    (k : String) : List ExperimentRecord :=
  rs.filter (fun r => key r == k)

/-- Embeds `df['algorithm'].unique()` / `df['topology'].unique()`
(`plot_convergence.py` lines 191, 204): pandas `unique` keeps the first
occurrence of each value in row order; `seen` accumulates values already
emitted. -/
def uniqueKeysAux (seen : List String) : List String → List String
  | [] => []
  | k :: ks =>
      if k ∈ seen then uniqueKeysAux seen ks
      else k :: uniqueKeysAux (k :: seen) ks

/-- The distinct group keys of a data set, in order of first occurrence. -/
def groupKeys (rs : List ExperimentRecord) (key : ExperimentRecord → String) :
    List String :=
  uniqueKeysAux [] (rs.map key)

/-- One element of the `degradation_data` list built by Plot 6 of
`failure_analysis_plots.py` (lines 115-119). -/
structure DegradationResult where
  failureModel : String
  failureRate : ℚ
  degradationPct : ℚ
deriving DecidableEq, Repr

/-- Embeds the degradation formula
`(row['convergence_time_ms'] - baseline) / baseline * 100`
(`failure_analysis_plots.py` line 114). -/
def degradationPct (metric baseline : ℚ) : ℚ :=
  (metric - baseline) / baseline * 100

/-- Embeds the per-topology baseline lookup
`full_data = df[df['topology'] == 'full']` followed by
`full_data[full_data['failure_model'] == 'none']['convergence_time_ms'].values[0]`
(`failure_analysis_plots.py` lines 68-69 and 108-109), with the topology
literal generalised to a parameter.  `.values[0]` is `head?`; `none` models
the IndexError raised when the selection is empty.  The script reads off the
metric of the returned row; the resolver returns the row itself. -/
def resolveBaselineTopo (records : List ExperimentRecord) (topo : String) :
    Option ExperimentRecord :=
  ((records.filter (fun r => r.topology == topo)).filter
    (fun r => r.failureModel == "none")).head?

/-- Embeds the per-(algorithm, topology) baseline lookup
`df[(df['algorithm'] == 'push-sum') & (df['failure_model'] == 'none') & (df['topology'] == 'full')]['convergence_time_ms'].values[0]`
(`failure_analysis_plots.py` lines 146, 175, 179), with the algorithm and
topology literals generalised to parameters. -/
def resolveBaselineAlgoTopo (records : List ExperimentRecord) (algo topo : String) :
    Option ExperimentRecord :=
  (records.filter
    (fun r => r.algorithm == algo && r.failureModel == "none" && r.topology == topo)).head?

/-- Embeds the Plot 6 degradation computation of `failure_analysis_plots.py`
(lines 106-121): restrict to `topology == 'full'`, take the first no-failure
row of that restriction as the single baseline, then emit one
`DegradationResult` per remaining row whose `failure_model != 'none'`, in row
order.  The `none` result models the IndexError of `.values[0]` when no
baseline row exists. -/
def computeDegradation (records : List ExperimentRecord) :
    Option (List DegradationResult) :=
  let fullData := records.filter (fun r => r.topology == "full")
  match (fullData.filter (fun r => r.failureModel == "none")).head? with
  | none => none
  | some b =>
      some ((fullData.filter (fun r => r.failureModel != "none")).map
        (fun r =>
          { failureModel := r.failureModel
            failureRate := r.failureRate
            degradationPct := degradationPct r.convergenceMetric b.convergenceMetric }))

/-- Scenario A of the spec (§8): one no-failure record and two node-failure
records on the full topology, metric = convergence time. -/
def scenarioA : List ExperimentRecord :=
  [⟨"gossip", "full", "none", 0, 10, 120⟩,
   ⟨"gossip", "full", "node", 1/10, 10, 150⟩,
   ⟨"gossip", "full", "node", 3/10, 10, 200⟩]

/-- The no-failure record of Scenario A, the expected resolved baseline. -/
def scenarioABaseline : ExperimentRecord := ⟨"gossip", "full", "none", 0, 10, 120⟩

/-- Scenario B of the spec (§8): five push-sum records on the line topology
with metrics 49000, 50000, 12000, 50000, 8000. -/
def scenarioB : List ExperimentRecord :=
  [⟨"push-sum", "line", "none", 0, 5, 49000⟩,
   ⟨"push-sum", "line", "none", 0, 5, 50000⟩,
   ⟨"push-sum", "line", "none", 0, 5, 12000⟩,
   ⟨"push-sum", "line", "none", 0, 5, 50000⟩,
   ⟨"push-sum", "line", "none", 0, 5, 8000⟩]

/-- Scenario C of the spec (§8): a data set containing no no-failure record
for the pair (algorithm = push-sum, topology = 3d). -/
def scenarioC : List ExperimentRecord :=
  [⟨"push-sum", "3d", "node", 1/10, 10, 500⟩,
   ⟨"push-sum", "full", "none", 0, 10, 100⟩,
   ⟨"gossip", "3d", "none", 0, 10, 80⟩]

/-- A data set on which the two baseline granularities disagree: two
no-failure records on the full topology (gossip metric 100 first, push-sum
metric 200 second), a push-sum failure record on full, and a gossip failure
record on the line topology. -/
def mixedBaselineRecords : List ExperimentRecord :=
  [⟨"gossip", "full", "none", 0, 10, 100⟩,
   ⟨"push-sum", "full", "none", 0, 10, 200⟩,
   ⟨"push-sum", "full", "node", 1/10, 10, 300⟩,
   ⟨"gossip", "line", "node", 1/10, 10, 500⟩]

/-- A data set whose resolved full-topology baseline has metric 0, followed
by one failure record. -/
def zeroBaselineRecords : List ExperimentRecord :=
  [⟨"gossip", "full", "none", 0, 10, 0⟩,
   ⟨"gossip", "full", "node", 1/10, 10, 150⟩]

/-- A data set with two full-topology no-failure rows (metrics 100 and then
200): duplicates for the same baseline key. -/
def duplicateBaselines : List ExperimentRecord :=
  [⟨"gossip", "full", "none", 0, 10, 100⟩,
   ⟨"push-sum", "full", "none", 0, 10, 200⟩]

-- Sanity checks on concrete data.
example :
    classify ⟨"gossip", "full", "none", 0, 10, 50000⟩ convergenceCap = false := by
  decide

example :
    classify ⟨"gossip", "full", "none", 0, 10, 49999⟩ convergenceCap = true := by
  decide

example :
    computeDegradation
      [⟨"gossip", "full", "none", 0, 10, 120⟩,
       ⟨"gossip", "full", "node", 1/10, 10, 150⟩] =
      some [⟨"node", 1/10, 25⟩] := by
  simp only [computeDegradation, List.filter_cons, List.filter_nil, String.reduceBEq,
    String.reduceBNe, Bool.false_eq_true, reduceIte, List.head?, List.map_cons, List.map_nil]
  norm_num [degradationPct]

/-- C1: for every record and cap, the classifier returns converged exactly
when `convergenceMetric < cap` (strict less-than); a record whose metric
equals the cap is classified non-converged.  Embeds the mask
`convergence_times < 50000` of `plot_convergence.py` lines 56, 142, 185. -/
theorem classify_strict_lt (r : ExperimentRecord) (cap : ℚ) :
    (classify r cap = true ↔ r.convergenceMetric < cap) ∧
    (r.convergenceMetric = cap → classify r cap = false) := by
  refine ⟨by simp [classify], fun h => ?_⟩
  simp [classify, h]

/-- Witness for C1: a record whose metric is exactly the cap 50000 is
classified non-converged. -/
theorem classify_strict_lt_witness :
    classify ⟨"gossip", "full", "none", 0, 10, 50000⟩ convergenceCap = false :=
  (classify_strict_lt ⟨"gossip", "full", "none", 0, 10, 50000⟩ convergenceCap).2 rfl

/-- C2: for every full-topology record with `failureModel ≠ none`, given the
resolved baseline `b` with nonzero metric (metrics are nonnegative by the
data model, hence the baseline metric is positive), the degradation
computation emits a result with
`degradationPct = (metric - baseline) / baseline * 100`; that value is
positive when the record's metric exceeds the baseline metric and zero when
they are equal. -/
theorem degradation_formula_and_sign (records : List ExperimentRecord)
    (b r : ExperimentRecord)
    (hb : resolveBaselineTopo records "full" = some b)
    (hb0 : b.convergenceMetric ≠ 0) (hbnn : 0 ≤ b.convergenceMetric)
    (hr : r ∈ records) (ht : r.topology = "full") (hf : r.failureModel ≠ "none") :
    ∃ ds, computeDegradation records = some ds ∧
      (⟨r.failureModel, r.failureRate,
        (r.convergenceMetric - b.convergenceMetric) / b.convergenceMetric * 100⟩ :
        DegradationResult) ∈ ds ∧
      (b.convergenceMetric < r.convergenceMetric →
        0 < (r.convergenceMetric - b.convergenceMetric) / b.convergenceMetric * 100) ∧
      (r.convergenceMetric = b.convergenceMetric →
        (r.convergenceMetric - b.convergenceMetric) / b.convergenceMetric * 100 = 0) := by
  have hbpos : 0 < b.convergenceMetric := lt_of_le_of_ne hbnn (Ne.symm hb0)
  simp only [resolveBaselineTopo] at hb
  have hcd : computeDegradation records =
      some (((records.filter (fun r => r.topology == "full")).filter
        (fun r => r.failureModel != "none")).map
        (fun r => ⟨r.failureModel, r.failureRate,
          degradationPct r.convergenceMetric b.convergenceMetric⟩)) := by
    simp only [computeDegradation]
    rw [hb]
  refine ⟨_, hcd, ?_, ?_, ?_⟩
  · refine List.mem_map.mpr ⟨r, ?_, rfl⟩
    refine List.mem_filter.mpr ⟨List.mem_filter.mpr ⟨hr, ?_⟩, ?_⟩
    · simpa using ht
    · simpa using hf
  · intro hlt
    have h1 : 0 < r.convergenceMetric - b.convergenceMetric := sub_pos.mpr hlt
    have h2 : 0 < (r.convergenceMetric - b.convergenceMetric) / b.convergenceMetric :=
      div_pos h1 hbpos
    linarith
  · intro heq
    rw [heq, sub_self, zero_div, zero_mul]

/-- Witness for C2 (Scenario A of the spec): baseline metric 120, record with
metric 150 yields degradation (150-120)/120*100 = 25 > 0. -/
theorem degradation_formula_and_sign_witness :
    ∃ ds, computeDegradation scenarioA = some ds ∧
      (⟨"node", 1/10, ((150 : ℚ) - 120) / 120 * 100⟩ : DegradationResult) ∈ ds ∧
      ((120 : ℚ) < 150 → 0 < ((150 : ℚ) - 120) / 120 * 100) ∧
      ((150 : ℚ) = 120 → ((150 : ℚ) - 120) / 120 * 100 = 0) :=
  degradation_formula_and_sign scenarioA scenarioABaseline
    ⟨"gossip", "full", "node", 1/10, 10, 150⟩
    (by simp only [resolveBaselineTopo, scenarioA, scenarioABaseline, List.filter_cons,
      List.filter_nil, String.reduceBEq, Bool.false_eq_true, reduceIte, List.head?])
    (by norm_num [scenarioABaseline]) (by norm_num [scenarioABaseline])
    (by unfold scenarioA; exact List.mem_cons_of_mem _ (List.mem_cons_self _ _))
    rfl (by decide)

/-- Counterexample to C3: the code computes every degradation against the
first no-failure record of the full topology regardless of algorithm
(here the gossip baseline 100, giving degradation 200%), not against the
per-(algorithm, topology) baseline (the push-sum baseline 200, which would
give 50%); and the non-full failure record yields no result at all, so the
output has one entry although two records have `failureModel ≠ none`. -/
theorem degradation_per_algo_baseline_cex :
    computeDegradation mixedBaselineRecords =
      some [⟨"node", 1/10, degradationPct 300 100⟩] ∧
    degradationPct 300 100 = 200 ∧
    resolveBaselineAlgoTopo mixedBaselineRecords "push-sum" "full" =
      some ⟨"push-sum", "full", "none", 0, 10, 200⟩ ∧
    degradationPct 300 200 = 50 ∧
    degradationPct 300 100 ≠ degradationPct 300 200 ∧
    (mixedBaselineRecords.filter (fun r => r.failureModel != "none")).length = 2 := by
  refine ⟨?_, ?_, ?_, ?_, ?_, ?_⟩
  · simp only [computeDegradation, mixedBaselineRecords, List.filter_cons, List.filter_nil,
      String.reduceBEq, String.reduceBNe, Bool.false_eq_true, reduceIte, List.head?, List.map_cons, List.map_nil]
  · norm_num [degradationPct]
  · simp only [resolveBaselineAlgoTopo, mixedBaselineRecords, List.filter_cons, List.filter_nil,
      String.reduceBEq, Bool.and_true, Bool.and_false, Bool.false_and, Bool.true_and,
      Bool.false_eq_true, reduceIte, List.head?]
  · norm_num [degradationPct]
  · norm_num [degradationPct]
  · simp only [mixedBaselineRecords, List.filter_cons, List.filter_nil, String.reduceBNe, Bool.false_eq_true,
      reduceIte, List.length_cons, List.length_nil]

/-- C3 as amended: the degradation computation produces exactly one
`DegradationResult` per full-topology input record with `failureModel ≠
none` (non-full records produce none), in input order, and every result is
computed against the single per-topology baseline: the first full-topology
no-failure record, irrespective of algorithm. -/
theorem degradation_per_topology_baseline (records : List ExperimentRecord)
    (b : ExperimentRecord) (hb : resolveBaselineTopo records "full" = some b) :
    computeDegradation records =
      some (((records.filter (fun r => r.topology == "full")).filter
        (fun r => r.failureModel != "none")).map
        (fun r => ⟨r.failureModel, r.failureRate,
          degradationPct r.convergenceMetric b.convergenceMetric⟩)) := by
  simp only [resolveBaselineTopo] at hb
  simp only [computeDegradation]
  rw [hb]

/-- Witness for the amended C3 on `mixedBaselineRecords`: the baseline is the
gossip record with metric 100 (first full-topology no-failure row). -/
theorem degradation_per_topology_baseline_witness :
    computeDegradation mixedBaselineRecords =
      some (((mixedBaselineRecords.filter (fun r => r.topology == "full")).filter
        (fun r => r.failureModel != "none")).map
        (fun r => ⟨r.failureModel, r.failureRate,
          degradationPct r.convergenceMetric 100⟩)) :=
  degradation_per_topology_baseline mixedBaselineRecords
    ⟨"gossip", "full", "none", 0, 10, 100⟩
    (by simp only [resolveBaselineTopo, mixedBaselineRecords, List.filter_cons,
      List.filter_nil, String.reduceBEq, Bool.false_eq_true, reduceIte, List.head?])

/-- Counterexample to C6: with a zero-metric baseline the code raises no
error and does not mark the record's result unavailable — it still emits a
`DegradationResult` for the failure record, computed by unconditionally
evaluating the division formula (in the Python script's float arithmetic
this value is infinite; the rational embedding records the same division
expression). -/
theorem zero_baseline_produces_result_cex :
    resolveBaselineTopo zeroBaselineRecords "full" =
      some ⟨"gossip", "full", "none", 0, 10, 0⟩ ∧
    computeDegradation zeroBaselineRecords =
      some [⟨"node", 1/10, degradationPct 150 0⟩] := by
  constructor
  · simp only [resolveBaselineTopo, zeroBaselineRecords, List.filter_cons, List.filter_nil,
      String.reduceBEq, Bool.false_eq_true, reduceIte, List.head?]
  · simp only [computeDegradation, zeroBaselineRecords, List.filter_cons, List.filter_nil,
      String.reduceBEq, String.reduceBNe, Bool.false_eq_true, reduceIte, List.head?,
      List.map_cons, List.map_nil]

/-- C6 as amended: when the resolved baseline's metric is zero, the code
neither fails nor skips the record: every full-topology failure record still
yields a `DegradationResult` (whose value comes from the unguarded division),
and the rest of the computation completes unchanged. -/
theorem zero_baseline_no_error (records : List ExperimentRecord)
    (b : ExperimentRecord) (hb : resolveBaselineTopo records "full" = some b)
    (_hzero : b.convergenceMetric = 0) :
    ∃ ds, computeDegradation records = some ds ∧
      ds.length = ((records.filter (fun r => r.topology == "full")).filter
        (fun r => r.failureModel != "none")).length := by
  simp only [resolveBaselineTopo] at hb
  have hcd : computeDegradation records =
      some (((records.filter (fun r => r.topology == "full")).filter
        (fun r => r.failureModel != "none")).map
        (fun r => ⟨r.failureModel, r.failureRate,
          degradationPct r.convergenceMetric b.convergenceMetric⟩)) := by
    simp only [computeDegradation]
    rw [hb]
  exact ⟨_, hcd, List.length_map _ _⟩

/-- Witness for the amended C6 on `zeroBaselineRecords` (baseline metric 0). -/
theorem zero_baseline_no_error_witness :
    ∃ ds, computeDegradation zeroBaselineRecords = some ds ∧
      ds.length = ((zeroBaselineRecords.filter (fun r => r.topology == "full")).filter
        (fun r => r.failureModel != "none")).length :=
  zero_baseline_no_error zeroBaselineRecords ⟨"gossip", "full", "none", 0, 10, 0⟩
    (by simp only [resolveBaselineTopo, zeroBaselineRecords, List.filter_cons,
      List.filter_nil, String.reduceBEq, Bool.false_eq_true, reduceIte, List.head?])
    rfl

/-- C7: when no no-failure record matches the requested
(algorithm, topology) key, the baseline lookup fails — the empty selection
makes `.values[0]` raise (modelled by `none`) — instead of returning any
default baseline. -/
theorem resolveBaseline_not_found (records : List ExperimentRecord)
    (algo topo : String)
    (h : ∀ r ∈ records,
      ¬(r.algorithm = algo ∧ r.failureModel = "none" ∧ r.topology = topo)) :
    resolveBaselineAlgoTopo records algo topo = none := by
  have hfilter : records.filter
      (fun r => r.algorithm == algo && r.failureModel == "none" && r.topology == topo) =
      [] := by
    rw [List.filter_eq_nil_iff]
    intro r hr
    have hnr := h r hr
    simp only [Bool.and_eq_true, beq_iff_eq, not_and] at hnr ⊢
    exact fun hp => hnr hp.1 hp.2
  simp only [resolveBaselineAlgoTopo, hfilter, List.head?]

/-- Witness for C7: resolving (push-sum, 3d) against Scenario C, which has no
such no-failure record, yields `none`. -/
theorem resolveBaseline_not_found_witness :
    resolveBaselineAlgoTopo scenarioC "push-sum" "3d" = none :=
  resolveBaseline_not_found scenarioC "push-sum" "3d" (by decide)

/-- Unfolding of the per-topology baseline lookup over a cons cell: the head
row is returned as soon as it matches both masks. -/
lemma resolveBaselineTopo_cons (a : ExperimentRecord) (l : List ExperimentRecord)
    (topo : String) :
    resolveBaselineTopo (a :: l) topo =
      if a.topology = topo ∧ a.failureModel = "none" then some a
      else resolveBaselineTopo l topo := by
  by_cases h1 : a.topology = topo
  · by_cases h2 : a.failureModel = "none"
    · simp [resolveBaselineTopo, List.filter_cons, h1, h2]
    · simp [resolveBaselineTopo, List.filter_cons, h1, h2]
  · simp [resolveBaselineTopo, List.filter_cons, h1]

/-- The row returned by the per-topology baseline lookup is the first row of
the data set, in input order, satisfying both masks. -/
lemma resolveBaselineTopo_first_match (records : List ExperimentRecord)
    (topo : String) (r : ExperimentRecord)
    (hr : resolveBaselineTopo records topo = some r) :
    ∃ n : ℕ, records[n]? = some r ∧ r.topology = topo ∧ r.failureModel = "none" ∧
      ∀ m : ℕ, m < n → ∀ s : ExperimentRecord, records[m]? = some s →
        ¬(s.topology = topo ∧ s.failureModel = "none") := by
  induction records with
  | nil => simp [resolveBaselineTopo] at hr
  | cons a l ih =>
      rw [resolveBaselineTopo_cons] at hr
      by_cases h : a.topology = topo ∧ a.failureModel = "none"
      · rw [if_pos h] at hr
        obtain rfl : a = r := by injection hr
        exact ⟨0, by simp, h.1, h.2, fun m hm => absurd hm (Nat.not_lt_zero m)⟩
      · rw [if_neg h] at hr
        obtain ⟨n, hn, hrt, hrf, hmin⟩ := ih hr
        refine ⟨n + 1, by simpa using hn, hrt, hrf, ?_⟩
        intro m hm s hs
        cases m with
        | zero =>
            obtain rfl : a = s := by simpa using hs
            exact h
        | succ k =>
            exact hmin k (Nat.lt_of_succ_lt_succ hm) s (by simpa using hs)

/-- C9: baseline resolution is a deterministic function of the data set and
key (two invocations agree), and when several no-failure rows match, the row
returned is the first match in input order (the script's `.values[0]`). -/
theorem resolveBaseline_deterministic_first (records : List ExperimentRecord)
    (topo : String) (r : ExperimentRecord)
    (hr : resolveBaselineTopo records topo = some r) :
    (∀ o : Option ExperimentRecord, resolveBaselineTopo records topo = o → o = some r) ∧
    ∃ n : ℕ, records[n]? = some r ∧ r.topology = topo ∧ r.failureModel = "none" ∧
      ∀ m : ℕ, m < n → ∀ s : ExperimentRecord, records[m]? = some s →
        ¬(s.topology = topo ∧ s.failureModel = "none") :=
  ⟨fun _ ho => ho ▸ hr, resolveBaselineTopo_first_match records topo r hr⟩

/-- Witness for C9: with duplicate matching rows the lookup returns the first
one in input order. -/
theorem resolveBaseline_deterministic_first_witness :
    (∀ o : Option ExperimentRecord,
      resolveBaselineTopo duplicateBaselines "full" = o →
        o = some ⟨"gossip", "full", "none", 0, 10, 100⟩) ∧
    ∃ n : ℕ, duplicateBaselines[n]? = some ⟨"gossip", "full", "none", 0, 10, 100⟩ ∧
      (⟨"gossip", "full", "none", 0, 10, 100⟩ : ExperimentRecord).topology = "full" ∧
      (⟨"gossip", "full", "none", 0, 10, 100⟩ : ExperimentRecord).failureModel = "none" ∧
      ∀ m : ℕ, m < n → ∀ s : ExperimentRecord, duplicateBaselines[m]? = some s →
        ¬(s.topology = "full" ∧ s.failureModel = "none") :=
  resolveBaseline_deterministic_first duplicateBaselines "full"
    ⟨"gossip", "full", "none", 0, 10, 100⟩
    (by simp only [resolveBaselineTopo, duplicateBaselines, List.filter_cons,
      List.filter_nil, String.reduceBEq, Bool.false_eq_true, reduceIte, List.head?])

/-- Rewriting of `meanConvergedMetric` without the `let`, guarded by
emptiness of the converged selection. -/
lemma meanConvergedMetric_eq (rs : List ExperimentRecord) (cap : ℚ) :
    meanConvergedMetric rs cap =
      if convergedRecords rs cap = [] then none
      else some (((convergedRecords rs cap).map (fun r => r.convergenceMetric)).sum /
        ((convergedRecords rs cap).length : ℚ)) := by
  simp [meanConvergedMetric, List.isEmpty_iff]

/-- C4: for every aggregation group, the mean converged metric is absent
exactly when no record of the group converged (never reported as a number),
otherwise it is the arithmetic mean of the converged records' metrics, and
it is invariant under any reordering of the input records. -/
theorem mean_converged_metric_spec (rs : List ExperimentRecord)
    (key : ExperimentRecord → String) (k : String) (cap : ℚ) :
    (meanConvergedMetric (groupRecords rs key k) cap = none ↔
      convergedCount (groupRecords rs key k) cap = 0) ∧
    (∀ m : ℚ, meanConvergedMetric (groupRecords rs key k) cap = some m →
      m = ((convergedRecords (groupRecords rs key k) cap).map
          (fun r => r.convergenceMetric)).sum /
        (convergedCount (groupRecords rs key k) cap : ℚ)) ∧
    (∀ rs' : List ExperimentRecord, rs.Perm rs' →
      meanConvergedMetric (groupRecords rs key k) cap =
        meanConvergedMetric (groupRecords rs' key k) cap) := by
  refine ⟨?_, ?_, ?_⟩
  · rw [meanConvergedMetric_eq]
    by_cases h : convergedRecords (groupRecords rs key k) cap = []
    · rw [if_pos h]
      simp [convergedCount, h]
    · simp only [if_neg h]
      constructor
      · intro hc; exact absurd hc (by simp)
      · intro hc
        exact absurd (List.length_eq_zero.mp hc) h
  · intro m hm
    rw [meanConvergedMetric_eq] at hm
    by_cases h : convergedRecords (groupRecords rs key k) cap = []
    · rw [if_pos h] at hm; exact absurd hm (by simp)
    · rw [if_neg h] at hm
      exact (Option.some_injective _ hm).symm
  · intro rs' hperm
    have hp : (convergedRecords (groupRecords rs key k) cap).Perm
        (convergedRecords (groupRecords rs' key k) cap) :=
      (hperm.filter _).filter _
    rw [meanConvergedMetric_eq, meanConvergedMetric_eq]
    by_cases h : convergedRecords (groupRecords rs key k) cap = []
    · have h2 : convergedRecords (groupRecords rs' key k) cap = [] := by
        have := h ▸ hp
        exact this.symm.eq_nil
      rw [if_pos h, if_pos h2]
    · have h2 : convergedRecords (groupRecords rs' key k) cap ≠ [] := by
        intro he
        exact h (he ▸ hp.symm).symm.eq_nil
      rw [if_neg h, if_neg h2, hp.length_eq,
        (hp.map (fun r => r.convergenceMetric)).sum_eq]

/-- Witness for C4 (Scenario B of the spec): the line-topology group has
converged metrics 49000, 12000, 8000, whose mean 23000 is what the pipeline
reports. -/
theorem mean_converged_metric_spec_witness :
    (23000 : ℚ) = ((convergedRecords
        (groupRecords scenarioB (fun r => r.topology) "line") 50000).map
        (fun r => r.convergenceMetric)).sum /
      (convergedCount (groupRecords scenarioB (fun r => r.topology) "line") 50000 : ℚ) :=
  (mean_converged_metric_spec scenarioB (fun r => r.topology) "line" 50000).2.1 23000
    (by norm_num [meanConvergedMetric, convergedRecords, groupRecords, classify, scenarioB,
      List.filter_cons, String.reduceBEq, Bool.false_eq_true, reduceIte])

/-- C5: for every aggregation group over a non-empty record selection, the
success rate equals `100 * convergedCount / count` and lies in [0, 100]. -/
theorem success_rate_formula_bounds (rs : List ExperimentRecord)
    (key : ExperimentRecord → String) (k : String) (cap : ℚ)
    (h : groupRecords rs key k ≠ []) :
    successRatePct (groupRecords rs key k) cap =
      100 * (convergedCount (groupRecords rs key k) cap : ℚ) /
        ((groupRecords rs key k).length : ℚ) ∧
    0 ≤ successRatePct (groupRecords rs key k) cap ∧
    successRatePct (groupRecords rs key k) cap ≤ 100 := by
  have hn : 0 < (groupRecords rs key k).length := List.length_pos.mpr h
  have hnq : (0 : ℚ) < ((groupRecords rs key k).length : ℚ) := by exact_mod_cast hn
  have hc : convergedCount (groupRecords rs key k) cap ≤ (groupRecords rs key k).length :=
    List.length_filter_le _ _
  have hcq : (convergedCount (groupRecords rs key k) cap : ℚ) ≤
      ((groupRecords rs key k).length : ℚ) := by exact_mod_cast hc
  have hdiv : (convergedCount (groupRecords rs key k) cap : ℚ) /
      ((groupRecords rs key k).length : ℚ) ≤ 1 := (div_le_one hnq).mpr hcq
  refine ⟨by rw [successRatePct]; ring, ?_, ?_⟩
  · rw [successRatePct]
    have : (0 : ℚ) ≤ (convergedCount (groupRecords rs key k) cap : ℚ) /
        ((groupRecords rs key k).length : ℚ) :=
      div_nonneg (by positivity) (le_of_lt hnq)
    linarith
  · rw [successRatePct]
    linarith

/-- Witness for C5 (Scenario B of the spec): 3 of 5 records converged, so the
success rate is 60, within [0, 100]. -/
theorem success_rate_formula_bounds_witness :
    (successRatePct (groupRecords scenarioB (fun r => r.topology) "line") 50000 =
      100 * (convergedCount (groupRecords scenarioB (fun r => r.topology) "line") 50000 : ℚ) /
        ((groupRecords scenarioB (fun r => r.topology) "line").length : ℚ) ∧
      0 ≤ successRatePct (groupRecords scenarioB (fun r => r.topology) "line") 50000 ∧
      successRatePct (groupRecords scenarioB (fun r => r.topology) "line") 50000 ≤ 100) ∧
    successRatePct (groupRecords scenarioB (fun r => r.topology) "line") 50000 = 60 :=
  ⟨success_rate_formula_bounds scenarioB (fun r => r.topology) "line" 50000
      (by simp [groupRecords, scenarioB]),
   by norm_num [successRatePct, convergedCount, convergedRecords, groupRecords, classify,
     scenarioB, List.filter_cons, String.reduceBEq, Bool.false_eq_true, reduceIte]⟩

/-- A non-empty list of rationals, each strictly below `c`, has sum strictly
below `length * c`. -/
lemma list_sum_lt_length_mul (l : List ℚ) (c : ℚ) (hne : l ≠ [])
    (h : ∀ x ∈ l, x < c) : l.sum < (l.length : ℚ) * c := by
  induction l with
  | nil => exact absurd rfl hne
  | cons a t ih =>
      cases t with
      | nil => simpa using h a (by simp)
      | cons b u =>
          have ht := ih (by simp) (fun x hx => h x (List.mem_cons_of_mem a hx))
          have ha := h a (List.mem_cons_self a _)
          simp only [List.sum_cons, List.length_cons] at ht ⊢
          push_cast at ht ⊢
          linarith

/-- C10: whenever a group reports a mean converged metric, that mean is
strictly below the convergence cap, because it averages only metrics each
strictly below the cap. -/
theorem mean_converged_lt_cap (rs : List ExperimentRecord)
    (key : ExperimentRecord → String) (k : String) (cap : ℚ) (m : ℚ)
    (hc : 0 < convergedCount (groupRecords rs key k) cap)
    (hm : meanConvergedMetric (groupRecords rs key k) cap = some m) :
    m < cap := by
  have hne : convergedRecords (groupRecords rs key k) cap ≠ [] := by
    intro he
    rw [convergedCount, he] at hc
    simp at hc
  rw [meanConvergedMetric_eq, if_neg hne] at hm
  have hmm : m = ((convergedRecords (groupRecords rs key k) cap).map
      (fun r => r.convergenceMetric)).sum /
      ((convergedRecords (groupRecords rs key k) cap).length : ℚ) :=
    (Option.some_injective _ hm).symm
  have hlt : ∀ x ∈ (convergedRecords (groupRecords rs key k) cap).map
      (fun r => r.convergenceMetric), x < cap := by
    intro x hx
    obtain ⟨r, hrmem, rfl⟩ := List.mem_map.mp hx
    have hcl := List.of_mem_filter hrmem
    simpa [classify] using hcl
  have hsum := list_sum_lt_length_mul _ cap (by simpa using hne) hlt
  rw [List.length_map] at hsum
  have hlen : (0 : ℚ) < ((convergedRecords (groupRecords rs key k) cap).length : ℚ) := by
    have := List.length_pos.mpr hne
    exact_mod_cast this
  rw [hmm, div_lt_iff₀ hlen]
  linarith

/-- Witness for C10 (Scenario B of the spec): the reported mean 23000 is
strictly below the cap 50000. -/
theorem mean_converged_lt_cap_witness : (23000 : ℚ) < 50000 :=
  mean_converged_lt_cap scenarioB (fun r => r.topology) "line" 50000 23000
    (by norm_num [convergedCount, convergedRecords, groupRecords, classify, scenarioB,
      List.filter_cons, String.reduceBEq, Bool.false_eq_true, reduceIte])
    (by norm_num [meanConvergedMetric, convergedRecords, groupRecords, classify, scenarioB,
      List.filter_cons, String.reduceBEq, Bool.false_eq_true, reduceIte])

/-- Membership in the distinct-keys accumulator: a value appears in the
output exactly when it appears in the input and was not already seen. -/
lemma mem_uniqueKeysAux (a : String) :
    ∀ (l seen : List String), a ∈ uniqueKeysAux seen l ↔ a ∈ l ∧ a ∉ seen := by
  intro l
  induction l with
  | nil => intro seen; simp [uniqueKeysAux]
  | cons k ks ih =>
      intro seen
      by_cases hk : k ∈ seen
      · rw [uniqueKeysAux, if_pos hk, ih seen]
        constructor
        · rintro ⟨h1, h2⟩; exact ⟨List.mem_cons_of_mem _ h1, h2⟩
        · rintro ⟨h1, h2⟩
          rcases List.mem_cons.mp h1 with h | h
          · exact absurd (h ▸ hk) h2
          · exact ⟨h, h2⟩
      · rw [uniqueKeysAux, if_neg hk, List.mem_cons, ih (k :: seen)]
        constructor
        · rintro (h | ⟨h1, h2⟩)
          · exact ⟨h ▸ List.mem_cons_self k ks, h ▸ hk⟩
          · exact ⟨List.mem_cons_of_mem _ h1, fun hs => h2 (List.mem_cons_of_mem _ hs)⟩
        · rintro ⟨h1, h2⟩
          rcases List.mem_cons.mp h1 with h | h
          · exact Or.inl h
          · by_cases hak : a = k
            · exact Or.inl hak
            · exact Or.inr ⟨h, fun hs => (List.mem_cons.mp hs).elim hak h2⟩

/-- The distinct-keys accumulator emits no duplicates. -/
lemma nodup_uniqueKeysAux :
    ∀ (l seen : List String), (uniqueKeysAux seen l).Nodup := by
  intro l
  induction l with
  | nil => intro seen; simp [uniqueKeysAux]
  | cons k ks ih =>
      intro seen
      by_cases hk : k ∈ seen
      · rw [uniqueKeysAux, if_pos hk]; exact ih seen
      · rw [uniqueKeysAux, if_neg hk]
        refine List.nodup_cons.mpr ⟨?_, ih (k :: seen)⟩
        intro hmem
        exact ((mem_uniqueKeysAux k ks (k :: seen)).mp hmem).2 (List.mem_cons_self _ _)

/-- Summing the indicator of a value absent from the key list gives 0. -/
lemma sum_map_ite_zero (ks : List String) (a : String) (ha : a ∉ ks) :
    (ks.map (fun k => if a = k then (1 : ℕ) else 0)).sum = 0 := by
  induction ks with
  | nil => simp
  | cons k t ih =>
      simp only [List.map_cons, List.sum_cons]
      rw [if_neg (fun h => ha (by rw [h]; exact List.mem_cons_self k t)),
        ih (fun h => ha (List.mem_cons_of_mem _ h))]

/-- Summing the indicator of a value over a duplicate-free key list that
contains it gives exactly 1. -/
lemma sum_map_ite_one (ks : List String) (a : String) (hnd : ks.Nodup)
    (ha : a ∈ ks) :
    (ks.map (fun k => if a = k then (1 : ℕ) else 0)).sum = 1 := by
  induction ks with
  | nil => cases ha
  | cons k t ih =>
      simp only [List.map_cons, List.sum_cons]
      rcases List.mem_cons.mp ha with h | h
      · rw [if_pos h, sum_map_ite_zero t a (by rw [h]; exact (List.nodup_cons.mp hnd).1)]
      · have hak : a ≠ k := fun he => (List.nodup_cons.mp hnd).1 (he ▸ h)
        rw [if_neg hak, ih (List.nodup_cons.mp hnd).2 h]

/-- Pointwise sums of natural-valued maps split. -/
lemma sum_map_add_nat (ks : List String) (f g : String → ℕ) :
    (ks.map (fun k => f k + g k)).sum = (ks.map f).sum + (ks.map g).sum := by
  induction ks with
  | nil => simp
  | cons k t ih =>
      simp only [List.map_cons, List.sum_cons, ih]
      omega

/-- Grouping by a key partitions the row count: over any duplicate-free key
list covering every row's key, the per-key filtered lengths sum to the total
length. -/
lemma sum_group_lengths (key : ExperimentRecord → String) :
    ∀ (rs : List ExperimentRecord) (ks : List String), ks.Nodup →
      (∀ r ∈ rs, key r ∈ ks) →
      (ks.map (fun k => (rs.filter (fun r => key r == k)).length)).sum = rs.length := by
  intro rs
  induction rs with
  | nil => intro ks _ _; simp
  | cons a t ih =>
      intro ks hnd hcov
      have hat : key a ∈ ks := hcov a (List.mem_cons_self a t)
      have hct : ∀ r ∈ t, key r ∈ ks := fun r hr => hcov r (List.mem_cons_of_mem a hr)
      have hsplit : ks.map (fun k => ((a :: t).filter (fun r => key r == k)).length) =
          ks.map (fun k => (t.filter (fun r => key r == k)).length +
            (if key a = k then 1 else 0)) := by
        apply List.map_congr_left
        intro k _
        by_cases h : key a = k
        · simp [List.filter_cons, h]
        · simp [List.filter_cons, h]
      rw [hsplit, sum_map_add_nat, ih ks hnd hct, sum_map_ite_one ks (key a) hnd hat,
        List.length_cons]

/-- C8: aggregation grouping is a partition — every input record matches
exactly one of the distinct group keys, and the per-group record counts sum
to the total record count. -/
theorem aggregation_partition (rs : List ExperimentRecord)
    (key : ExperimentRecord → String) :
    (∀ r ∈ rs, ∃! k : String, k ∈ groupKeys rs key ∧ key r = k) ∧
    ((groupKeys rs key).map (fun k => (groupRecords rs key k).length)).sum =
      rs.length := by
  constructor
  · intro r hr
    refine ⟨key r, ⟨?_, rfl⟩, ?_⟩
    · exact (mem_uniqueKeysAux _ _ _).mpr ⟨List.mem_map_of_mem key hr, by simp⟩
    · rintro k' ⟨_, hk'⟩; exact hk'.symm
  · have hnd : (groupKeys rs key).Nodup := nodup_uniqueKeysAux _ _
    have hcov : ∀ r ∈ rs, key r ∈ groupKeys rs key := fun r hr =>
      (mem_uniqueKeysAux _ _ _).mpr ⟨List.mem_map_of_mem key hr, by simp⟩
    exact sum_group_lengths key rs (groupKeys rs key) hnd hcov

/-- Witness for C8 on Scenario A, grouped by topology. -/
theorem aggregation_partition_witness :
    (∀ r ∈ scenarioA, ∃! k : String,
      k ∈ groupKeys scenarioA (fun r => r.topology) ∧ r.topology = k) ∧
    ((groupKeys scenarioA (fun r => r.topology)).map
      (fun k => (groupRecords scenarioA (fun r => r.topology) k).length)).sum =
      scenarioA.length :=
  aggregation_partition scenarioA (fun r => r.topology)
